import Mathlib

/-!
Shallow embedding of the ishe3ikin scraper engine, translated from the Go
sources: the worker pool in internal/lib/work/pool.go, the task runner and
scraper in internal/scraper/scraper.go, and the CSV exporter in
internal/exporter/csv/exporter.go. Go maps over strings are modelled as
association lists; Go channels as explicit buffered-channel states with the
Go runtime semantics for send and close (send on a closed channel panics,
close of a closed channel panics, send on a full buffer suspends the sender).
-/

namespace Ishe3ikin

/-- The outcome of one call to a Task Execute method: a payload or an error.
In pool.go the payload type is interface\x7b\x7d, so it stays a parameter here;
Go errors are carried as their message strings. -/
inductive ExecResult (α : Type) where
  | ok : α → ExecResult α
  | err : String → ExecResult α
deriving DecidableEq, Repr

/-- A scraped page result, Go type map[string]string, as an association list
in iteration order. -/
abbrev Outcome := List (String × String)

/-! ## Buffered Go channels -/

/-- State of a buffered Go channel: pending buffer, capacity, closed flag. -/
structure ChanState (α : Type) where
  buf : List α
  cap : Nat
  closed : Bool
deriving DecidableEq, Repr

/-- make(chan T, queueSize): the Go runtime panics when the size is
negative, otherwise allocates an open empty channel. none models the panic. -/
def goMakeChan (α : Type) (queueSize : Int) : Option (ChanState α) :=
  if queueSize < 0 then none else some ⟨[], queueSize.toNat, false⟩

/-- What a Go channel send does, seen from the sender. -/
inductive ChanSendResult (α : Type) where
  | sent : ChanState α → ChanSendResult α
  | blocked : ChanSendResult α
  | panicked : ChanSendResult α
deriving DecidableEq, Repr

/-- Go send semantics: sending on a closed channel panics; sending on a full
buffer suspends the sender; otherwise the value is appended to the buffer. -/
def chanSend (c : ChanState α) (x : α) : ChanSendResult α :=
  if c.closed then ChanSendResult.panicked
  else if c.buf.length < c.cap then ChanSendResult.sent ⟨c.buf ++ [x], c.cap, c.closed⟩
  else ChanSendResult.blocked

/-- What a Go close does. -/
inductive ChanCloseResult (α : Type) where
  | ok : ChanState α → ChanCloseResult α
  | panicked : ChanCloseResult α
deriving DecidableEq, Repr

/-- Go close semantics: closing an already-closed channel panics. -/
def chanClose (c : ChanState α) : ChanCloseResult α :=
  if c.closed then ChanCloseResult.panicked else ChanCloseResult.ok ⟨c.buf, c.cap, true⟩

/-! ## WorkerPool (internal/lib/work/pool.go)

A Task is opaque to the pool: the only thing the pool observes is the value
of its one Execute call, so a queued task is modelled by its ExecResult.
workersLaunched is instrumentation counting the goroutines ever started by
Run; the Go struct itself holds only the two channels, the worker count and
a WaitGroup. -/

structure WorkerPool (α : Type) where
  resultChan : ChanState α
  taskQueue : ChanState (ExecResult α)
  workerCount : Int
  workersLaunched : Nat
deriving DecidableEq, Repr

/-- NewWorkerPool from pool.go: no argument validation whatsoever; it builds
the two channels (each of capacity queueSize) and returns the pool. The only
failure mode is the runtime panic of make on a negative size (none). -/
def NewWorkerPool (α : Type) (workerCount : Int) (queueSize : Int) :
    Option (WorkerPool α) :=
  match goMakeChan (ExecResult α) queueSize, goMakeChan α queueSize with
  | some tq, some rc => some ⟨rc, tq, workerCount, 0⟩
  | _, _ => none

/-- Run from pool.go: the loop `for i := 0; i < workerCount; i++` starts one
worker goroutine per iteration, so max(workerCount, 0) goroutines per call.
There is no sync.Once or started flag guarding it. -/
def WorkerPool.Run (wp : WorkerPool α) : WorkerPool α :=
  { wp with workersLaunched := wp.workersLaunched + wp.workerCount.toNat }

/-- Result of AddTask, from the sender side of `wp.taskQueue <- task`. -/
inductive AddTaskResult (α : Type) where
  | enqueued : WorkerPool α → AddTaskResult α
  | blocked : AddTaskResult α
  | panicked : AddTaskResult α
deriving DecidableEq, Repr

/-- AddTask from pool.go: a bare channel send on the task queue. After the
queue is closed this send panics; on a full open queue it blocks; otherwise
the task is enqueued. No error value is ever returned. -/
def WorkerPool.AddTask (wp : WorkerPool α) (t : ExecResult α) : AddTaskResult α :=
  match chanSend wp.taskQueue t with
  | ChanSendResult.sent q => AddTaskResult.enqueued { wp with taskQueue := q }
  | ChanSendResult.blocked => AddTaskResult.blocked
  | ChanSendResult.panicked => AddTaskResult.panicked

/-- Result of Shutdown. -/
inductive ShutdownResult (α : Type) where
  | ok : WorkerPool α → ShutdownResult α
  | panicked : ShutdownResult α
deriving DecidableEq, Repr

/-- Shutdown from pool.go: close(taskQueue), then wg.Wait() (workers drain
and exit), then close(resultChan). Neither close is guarded, so a repeated
Shutdown panics on the first close. -/
def WorkerPool.Shutdown (wp : WorkerPool α) : ShutdownResult α :=
  match chanClose wp.taskQueue with
  | ChanCloseResult.panicked => ShutdownResult.panicked
  | ChanCloseResult.ok q =>
    match chanClose wp.resultChan with
    | ChanCloseResult.panicked => ShutdownResult.panicked
    | ChanCloseResult.ok rc => ShutdownResult.ok { wp with taskQueue := q, resultChan := rc }

/-! ## The worker loop of pool.go, as its trace of actions

The body is: print a processing line, call task.Execute(); on error print
the error (no channel operation), otherwise send the result on resultChan;
after the queue is closed and drained, print a shutdown line. The worker id
only appears inside the printed text and is omitted. -/

/-- One observable action of a worker goroutine. sendResult is the only
channel operation the worker loop performs; everything else is fmt.Printf. -/
inductive WorkerAction (α : Type) where
  | printf : String → WorkerAction α
  | execute : ExecResult α → WorkerAction α
  | sendResult : α → WorkerAction α
deriving DecidableEq, Repr

/-- The action trace of one worker consuming the given sequence of tasks
from the queue, each task represented by its Execute outcome. -/
def workerActions : List (ExecResult α) → List (WorkerAction α)
  | [] => [WorkerAction.printf "Worker shutting down."]
  | t :: rest =>
    WorkerAction.printf "Worker processing task..." :: WorkerAction.execute t ::
      (match t with
       | ExecResult.ok v => [WorkerAction.sendResult v]
       | ExecResult.err e => [WorkerAction.printf ("Worker encountered an error: " ++ e)]) ++
      workerActions rest

/-- Is the action a channel send? Only sendResult is: the worker loop
contains no other channel operation, in particular no error-channel send. -/
def WorkerAction.isChanSend : WorkerAction α → Bool
  | WorkerAction.sendResult _ => true
  | _ => false

/-- The payloads a worker delivers to resultChan. -/
def sendsOf (acts : List (WorkerAction α)) : List α :=
  acts.filterMap fun a => match a with
    | WorkerAction.sendResult v => some v
    | _ => none

/-- The Execute calls a worker makes, in order. -/
def executionsOf (acts : List (WorkerAction α)) : List (ExecResult α) :=
  acts.filterMap fun a => match a with
    | WorkerAction.execute t => some t
    | _ => none

/-- The successful payloads among a task sequence. -/
def okValues : List (ExecResult α) → List α
  | [] => []
  | ExecResult.ok v :: rest => v :: okValues rest
  | ExecResult.err _ :: rest => okValues rest

/-! ## TaskRunner.Run (internal/scraper/scraper.go)

Run starts one goroutine per scraper; each sends exactly one message, either
its result on resultsChan or its error on errorsChan, and a closer goroutine
closes both channels after all of them finish. The select loop is modelled at
the granularity of a resolved scheduling trace: one AggEvent per select
iteration, recording which case fired and what it delivered. -/

/-- One resolved iteration of the select loop in TaskRunner.Run. -/
inductive AggEvent where
  | res : Outcome → AggEvent
  | resClosed : AggEvent
  | err : String → AggEvent
  | errClosed : AggEvent
  | ctxDone : AggEvent
deriving DecidableEq, Repr

/-- The synthetic error appended on deadline expiry in TaskRunner.Run. -/
def timeoutMsg : String := "scraping tasks timed out"

/-- The select loop of TaskRunner.Run. rn and en are the `resultsChan = nil`
and `errorsChan = nil` flags; the loop breaks once both are set (checked at
the top of each iteration, equivalently after each event since both start
false), a delivered value is appended to the matching list, a closed
observation sets the flag, and a fired ctx.Done() appends timeoutMsg and
returns at once. -/
def aggLoop (evts : List AggEvent) (rn en : Bool) (rs : List Outcome)
    (es : List String) : List Outcome × List String :=
  if rn && en then (rs, es)
  else
    match evts with
    | [] => (rs, es)
    | AggEvent.ctxDone :: _ => (rs, es ++ [timeoutMsg])
    | AggEvent.res r :: tl => aggLoop tl rn en (rs ++ [r]) es
    | AggEvent.resClosed :: tl => aggLoop tl true en rs es
    | AggEvent.err e :: tl => aggLoop tl rn en rs (es ++ [e])
    | AggEvent.errClosed :: tl => aggLoop tl rn true rs es

/-- TaskRunner.Run, given the resolved trace of its select loop: both nil
flags start false and both lists start empty. -/
def TaskRunner.Run (evts : List AggEvent) : List Outcome × List String :=
  aggLoop evts false false [] []

/-- The single message the goroutine spawned for one scraper sends, as the
aggregator receives it: the result on resultsChan on success, the error on
errorsChan otherwise. -/
def msgOfExec : ExecResult Outcome → AggEvent
  | ExecResult.ok o => AggEvent.res o
  | ExecResult.err e => AggEvent.err e

/-- An event that delivers a value (is neither a close observation nor the
deadline case). -/
def AggEvent.isDelivery : AggEvent → Bool
  | AggEvent.res _ => true
  | AggEvent.err _ => true
  | _ => false

/-- The outcomes delivered by a trace. -/
def resOf (evts : List AggEvent) : List Outcome :=
  evts.filterMap fun e => match e with
    | AggEvent.res r => some r
    | _ => none

/-- The errors delivered by a trace. -/
def errOf (evts : List AggEvent) : List String :=
  evts.filterMap fun e => match e with
    | AggEvent.err s => some s
    | _ => none

/-! ## RodScraper.Scrape (internal/scraper/scraper.go)

The browser page is abstracted by what each selector query can observe:
page.Timeout(10s).Element(selector) either fails (notFound), or yields an
element whose Text() call fails (textErr) or returns text (found). The Go
context parameter is carried verbatim; the body of Scrape never consults
it. -/

/-- A Go context, reduced to what Scrape could observe of it: whether its
Done channel is already closed. -/
structure GoContext where
  cancelled : Bool
deriving DecidableEq, Repr

/-- Result of one page.Element(selector) query followed by Text(). -/
inductive ElemResult where
  | notFound : ElemResult
  | textErr : String → ElemResult
  | found : String → ElemResult
deriving DecidableEq, Repr

/-- The page as Scrape can observe it: whether Navigate succeeds, and the
response to each selector query. -/
structure PageEnv where
  navigateOk : Bool
  lookup : String → ElemResult

/-- Return value of Scrape: the results map or the error. -/
inductive ScrapeOutput where
  | ok : Outcome → ScrapeOutput
  | err : String → ScrapeOutput
deriving DecidableEq, Repr

/-- The selector loop of Scrape, also recording every selector the page is
actually queried for. An empty selector binds its key to the empty string
and performs no query; a failed Element query logs a warning and binds the
empty string; a failed Text() aborts the whole Scrape with an error; found
text is bound to the key. -/
def scrapeSelectors (env : PageEnv) :
    List (String × String) → Outcome → List String → ScrapeOutput × List String
  | [], acc, queried => (ScrapeOutput.ok acc, queried)
  | (key, sel) :: rest, acc, queried =>
    if sel = "" then scrapeSelectors env rest (acc ++ [(key, "")]) queried
    else
      match env.lookup sel with
      | ElemResult.notFound => scrapeSelectors env rest (acc ++ [(key, "")]) (queried ++ [sel])
      | ElemResult.textErr _ =>
        (ScrapeOutput.err ("failed to get text for selector " ++ sel), queried ++ [sel])
      | ElemResult.found t => scrapeSelectors env rest (acc ++ [(key, t)]) (queried ++ [sel])

/-- RodScraper.Scrape: log, create the page, Navigate (failure returns an
error), then run the selector loop over the Selectors map of the task
configuration. The ctx argument appears in the Go signature and is never
read in the body. Returns the Go return value paired with the list of
selectors queried on the page. -/
def Scrape (ctx : GoContext) (env : PageEnv) (selectors : List (String × String)) :
    ScrapeOutput × List String :=
  if env.navigateOk then scrapeSelectors env selectors [] []
  else (ScrapeOutput.err "failed to navigate to page", [])

/-- The value Scrape binds to a key whose selector behaves as env says, on a
run that returns successfully: empty selectors and missing elements yield
the empty string, found elements yield their text. (The textErr branch never
contributes to a successful run; its value here is irrelevant and set to
the empty string.) -/
def scrapeVal (env : PageEnv) (sel : String) : String :=
  if sel = "" then ""
  else
    match env.lookup sel with
    | ElemResult.notFound => ""
    | ElemResult.textErr _ => ""
    | ElemResult.found t => t

/-! ## CSVExporter.Export (internal/exporter/csv/exporter.go) -/

/-- The header block of Export: when the data is non-empty, one row holding
the keys of the first record in iteration order; otherwise nothing. -/
def csvHeaders : List Outcome → List (List String)
  | [] => []
  | first :: _ => [first.map Prod.fst]

/-- The rows Export hands to the csv writer on a successfully created file:
the header block, then one row per record holding its values in iteration
order. In-memory csv writes do not fail, so Export then returns nil. -/
def csvExport (data : List Outcome) : List (List String) :=
  csvHeaders data ++ data.map fun record => record.map Prod.snd

/-! ## Concrete fixtures used by counterexamples and witnesses -/

/-- The pool NewWorkerPool(1, 1) builds: one worker, both channels open with
capacity one, no goroutine launched yet. -/
def poolA : WorkerPool Unit :=
  ⟨⟨[], 1, false⟩, ⟨[], 1, false⟩, 1, 0⟩

/-- poolA after its first Shutdown: both channels closed. -/
def poolAShut : WorkerPool Unit :=
  ⟨⟨[], 1, true⟩, ⟨[], 1, true⟩, 1, 0⟩

/-- A page on which Navigate succeeds, the selector h1 holds the text Title,
and every other selector finds nothing. -/
def pageW : PageEnv :=
  ⟨true, fun s => if s = "h1" then ElemResult.found "Title" else ElemResult.notFound⟩

end Ishe3ikin

namespace Ishe3ikin

/-! ## Theorems for the claims -/

/-- C3 counterexample: on the pool NewWorkerPool(1, 1), after a completed
Shutdown, AddTask panics (Go send on a closed channel). It does not fail
with a PoolClosed error — no error return exists in the AddTask API — so
the claim that it fails with PoolClosed and never panics is false. -/
theorem addTask_after_shutdown_panics :
    NewWorkerPool Unit 1 1 = some poolA ∧
    poolA.Shutdown = ShutdownResult.ok poolAShut ∧
    poolAShut.AddTask (ExecResult.ok ()) = AddTaskResult.panicked :=
  ⟨rfl, rfl, rfl⟩

/-- C3 (amended): once the queue has been closed by Shutdown, AddTask panics
rather than returning a PoolClosed error; while the queue is open, AddTask
blocks exactly when the queue is at capacity and enqueues otherwise. -/
theorem addTask_amended (wp : WorkerPool α) (t : ExecResult α) :
    (wp.taskQueue.closed = true → wp.AddTask t = AddTaskResult.panicked) ∧
    (wp.taskQueue.closed = false →
      (wp.AddTask t = AddTaskResult.blocked ↔
        wp.taskQueue.cap ≤ wp.taskQueue.buf.length)) := by
  constructor
  · intro h
    simp [WorkerPool.AddTask, chanSend, h]
  · intro h
    by_cases hc : wp.taskQueue.buf.length < wp.taskQueue.cap
    · simp [WorkerPool.AddTask, chanSend, h, hc]
    · simp [WorkerPool.AddTask, chanSend, h, hc]
      omega

/-- C3 witness: the amended theorem evaluated on poolAShut (closed queue:
panic) and on poolA (open queue with room: not blocked). -/
theorem addTask_amended_witness :
    poolAShut.AddTask (ExecResult.ok ()) = AddTaskResult.panicked ∧
    (poolA.AddTask (ExecResult.ok ()) = AddTaskResult.blocked ↔
      poolA.taskQueue.cap ≤ poolA.taskQueue.buf.length) :=
  ⟨(addTask_amended poolAShut (ExecResult.ok ())).1 rfl,
   (addTask_amended poolA (ExecResult.ok ())).2 rfl⟩

/-- C4 counterexample: a second Shutdown of the pool NewWorkerPool(1, 1)
panics (close of the already-closed task queue), so Shutdown is not
idempotent as claimed. -/
theorem shutdown_twice_panics :
    poolA.Shutdown = ShutdownResult.ok poolAShut ∧
    poolAShut.Shutdown = ShutdownResult.panicked :=
  ⟨rfl, rfl⟩

/-- C4 (amended): Shutdown is unguarded. A first Shutdown (both channels
still open) closes the task queue and then the result channel once each; any
later Shutdown finds the task queue already closed and panics at that first
close. -/
theorem shutdown_amended (wp : WorkerPool α) :
    (wp.taskQueue.closed = true → wp.Shutdown = ShutdownResult.panicked) ∧
    (wp.taskQueue.closed = false → wp.resultChan.closed = false →
      wp.Shutdown = ShutdownResult.ok
        { wp with taskQueue := ⟨wp.taskQueue.buf, wp.taskQueue.cap, true⟩,
                  resultChan := ⟨wp.resultChan.buf, wp.resultChan.cap, true⟩ }) := by
  constructor
  · intro h
    simp [WorkerPool.Shutdown, chanClose, h]
  · intro h hr
    simp [WorkerPool.Shutdown, chanClose, h, hr]

/-- C4 witness: the amended theorem evaluated on poolA (fresh: Shutdown
closes both channels) and poolAShut (already shut: Shutdown panics). -/
theorem shutdown_amended_witness :
    poolAShut.Shutdown = ShutdownResult.panicked ∧
    poolA.Shutdown = ShutdownResult.ok
      { poolA with taskQueue := ⟨poolA.taskQueue.buf, poolA.taskQueue.cap, true⟩,
                   resultChan := ⟨poolA.resultChan.buf, poolA.resultChan.cap, true⟩ } :=
  ⟨(shutdown_amended poolAShut).1 rfl, (shutdown_amended poolA).2 rfl rfl⟩

/-- C5 counterexample: NewWorkerPool(0, 0) has workerCount ≤ 0 and
queueCapacity ≤ 0, yet the constructor performs no validation and returns a
pool instead of failing with InvalidConfiguration. -/
theorem newWorkerPool_accepts_zero :
    NewWorkerPool Unit 0 0 = some ⟨⟨[], 0, false⟩, ⟨[], 0, false⟩, 0, 0⟩ :=
  rfl

/-- C5 (amended): NewWorkerPool validates nothing. For every workerCount and
every queueSize ≥ 0 (zero and negative worker counts included) it returns a
pool; a negative queueSize makes the channel allocation panic at runtime,
which is the only failure mode and is not an InvalidConfiguration error. -/
theorem newWorkerPool_amended (α : Type) (w q : Int) :
    (0 ≤ q → (NewWorkerPool α w q).isSome = true) ∧
    (q < 0 → NewWorkerPool α w q = none) := by
  constructor
  · intro h
    simp [NewWorkerPool, goMakeChan, not_lt.mpr h]
  · intro h
    simp [NewWorkerPool, goMakeChan, h]

/-- C5 witness: the amended theorem evaluated at (0, 0), an invalid
configuration the constructor accepts, and at (1, -1), where make panics. -/
theorem newWorkerPool_amended_witness :
    (NewWorkerPool Unit 0 0).isSome = true ∧
    NewWorkerPool Unit 1 (-1) = none :=
  ⟨(newWorkerPool_amended Unit 0 0).1 (by decide),
   (newWorkerPool_amended Unit 1 (-1)).2 (by decide)⟩

/-- C6 counterexample: on NewWorkerPool(1, 1), calling Run twice launches
two workers in total, not the workerCount of one — there is no one-time
gate, so Run is not idempotent. -/
theorem run_twice_doubles_workers :
    poolA.Run.Run.workersLaunched = 2 ∧
    ¬poolA.Run.Run.workersLaunched = poolA.workerCount.toNat := by
  constructor
  · rfl
  · decide

/-- C6 (amended): each call to Run launches max(workerCount, 0) further
workers — exactly workerCount for a positive count — so after two calls the
total is twice that; nothing guards against repeated calls. -/
theorem run_launches_per_call (wp : WorkerPool α) :
    wp.Run.workersLaunched = wp.workersLaunched + wp.workerCount.toNat ∧
    wp.Run.Run.workersLaunched = wp.workersLaunched + 2 * wp.workerCount.toNat := by
  refine ⟨rfl, ?_⟩
  simp [WorkerPool.Run]
  omega

/-- C7 counterexample: a worker that pulls one always-failing task performs
no channel send at all — the error is only printed, the WorkerPool has no
error channel — so the error is not forwarded to any pool error output. -/
theorem worker_error_only_printed :
    (workerActions [ExecResult.err (α := Outcome) "task failed"]).filter
      WorkerAction.isChanSend = [] := by
  rfl

/-- C7 (amended): for every task sequence the worker executes each queued
task exactly once in order (it neither stops after a failure nor re-executes
any task) and sends exactly the successful payloads to resultChan; execution
errors produce no channel send, they are only printed and dropped. -/
theorem worker_amended (q : List (ExecResult α)) :
    executionsOf (workerActions q) = q ∧
    sendsOf (workerActions q) = okValues q := by
  induction q with
  | nil => exact ⟨rfl, rfl⟩
  | cons t rest ih =>
    cases t with
    | ok v =>
      refine ⟨?_, ?_⟩ <;>
        simp [workerActions, executionsOf, sendsOf, okValues,
          List.filterMap_cons, List.filterMap_append] <;>
        simp [executionsOf, sendsOf] at ih <;> tauto
    | err e =>
      refine ⟨?_, ?_⟩ <;>
        simp [workerActions, executionsOf, sendsOf, okValues,
          List.filterMap_cons, List.filterMap_append] <;>
        simp [executionsOf, sendsOf] at ih <;> tauto

/-! ### Aggregator lemmas -/

/-- One select iteration delivering a result appends it and loops. -/
theorem aggLoop_res (r : Outcome) (tl : List AggEvent) (rn en : Bool)
    (rs : List Outcome) (es : List String) (hb : (rn && en) = false) :
    aggLoop (AggEvent.res r :: tl) rn en rs es = aggLoop tl rn en (rs ++ [r]) es := by
  rw [aggLoop, hb]
  simp

/-- One select iteration delivering an error appends it and loops. -/
theorem aggLoop_err (e : String) (tl : List AggEvent) (rn en : Bool)
    (rs : List Outcome) (es : List String) (hb : (rn && en) = false) :
    aggLoop (AggEvent.err e :: tl) rn en rs es = aggLoop tl rn en rs (es ++ [e]) := by
  rw [aggLoop, hb]
  simp

/-- Observing resultsChan closed sets its nil flag and loops. -/
theorem aggLoop_resClosed (tl : List AggEvent) (rn en : Bool)
    (rs : List Outcome) (es : List String) (hb : (rn && en) = false) :
    aggLoop (AggEvent.resClosed :: tl) rn en rs es = aggLoop tl true en rs es := by
  rw [aggLoop, hb]
  simp

/-- Observing errorsChan closed sets its nil flag and loops. -/
theorem aggLoop_errClosed (tl : List AggEvent) (rn en : Bool)
    (rs : List Outcome) (es : List String) (hb : (rn && en) = false) :
    aggLoop (AggEvent.errClosed :: tl) rn en rs es = aggLoop tl rn true rs es := by
  rw [aggLoop, hb]
  simp

/-- A fired ctx.Done() appends the synthetic timeout error and returns at
once, ignoring every later event. -/
theorem aggLoop_ctxDone (tl : List AggEvent) (rn en : Bool)
    (rs : List Outcome) (es : List String) (hb : (rn && en) = false) :
    aggLoop (AggEvent.ctxDone :: tl) rn en rs es = (rs, es ++ [timeoutMsg]) := by
  rw [aggLoop, hb]
  simp

/-- A prefix made only of deliveries accumulates them in arrival order and
leaves both nil flags unset. -/
theorem aggLoop_deliveries (msgs : List AggEvent)
    (h : ∀ e ∈ msgs, e.isDelivery = true) (tail : List AggEvent)
    (rs : List Outcome) (es : List String) :
    aggLoop (msgs ++ tail) false false rs es =
      aggLoop tail false false (rs ++ resOf msgs) (es ++ errOf msgs) := by
  induction msgs generalizing rs es with
  | nil => simp [resOf, errOf]
  | cons e tl ih =>
    have he : e.isDelivery = true := h e (by simp)
    have htl : ∀ x ∈ tl, x.isDelivery = true := fun x hx => h x (by simp [hx])
    cases e with
    | res r =>
      rw [List.cons_append, aggLoop_res r (tl ++ tail) false false rs es rfl, ih htl]
      simp [resOf, errOf]
    | err s =>
      rw [List.cons_append, aggLoop_err s (tl ++ tail) false false rs es rfl, ih htl]
      simp [resOf, errOf]
    | resClosed => simp [AggEvent.isDelivery] at he
    | errClosed => simp [AggEvent.isDelivery] at he
    | ctxDone => simp [AggEvent.isDelivery] at he

/-- After both close observations, in either order, the loop breaks and
returns what was collected. -/
theorem aggLoop_both_closed (closes : List AggEvent)
    (hc : closes = [AggEvent.resClosed, AggEvent.errClosed] ∨
          closes = [AggEvent.errClosed, AggEvent.resClosed])
    (rs : List Outcome) (es : List String) :
    aggLoop closes false false rs es = (rs, es) := by
  rcases hc with h | h <;> subst h <;> rfl

/-- A delivery-only trace splits into its results and errors, one event
contributing to exactly one side. -/
theorem delivery_count (msgs : List AggEvent)
    (h : ∀ e ∈ msgs, e.isDelivery = true) :
    (resOf msgs).length + (errOf msgs).length = msgs.length := by
  induction msgs with
  | nil => simp [resOf, errOf]
  | cons e tl ih =>
    have he : e.isDelivery = true := h e (by simp)
    have htl : ∀ x ∈ tl, x.isDelivery = true := fun x hx => h x (by simp [hx])
    cases e with
    | res r =>
      have := ih htl
      simp [resOf, errOf] at this ⊢
      omega
    | err s =>
      have := ih htl
      simp [resOf, errOf] at this ⊢
      omega
    | resClosed => simp [AggEvent.isDelivery] at he
    | errClosed => simp [AggEvent.isDelivery] at he
    | ctxDone => simp [AggEvent.isDelivery] at he

/-- C1 counterexample: one always-failing task run through the pool of
pool.go with one worker. The worker performs no channel send at all — the
execution error is printed and dropped, the pool has no error channel — so
the outcomes collected plus the errors collected number zero, not the one
task submitted. -/
theorem pool_run_loses_failed_task :
    ((workerActions [ExecResult.err (α := Outcome) "task failed"]).filter
        WorkerAction.isChanSend).length ≠
      [ExecResult.err (α := Outcome) "task failed"].length := by
  decide

/-- C1 (amended): the accounting claim holds for TaskRunner.Run of
scraper.go: with N tasks, each goroutine delivers exactly one result or one
error, and once both channels are observed closed (in either order, with no
deadline event) the collected outcomes and errors add up to N. For the
WorkerPool of pool.go it fails: a worker sends only the successful payloads
to resultChan and no error anywhere, so the channel traffic of a worker
numbers exactly the successful tasks. -/
theorem runner_accounts_every_task (tasks : List (ExecResult Outcome))
    (msgs closes : List AggEvent) (q : List (ExecResult Outcome))
    (hp : msgs.Perm (tasks.map msgOfExec))
    (hc : closes = [AggEvent.resClosed, AggEvent.errClosed] ∨
          closes = [AggEvent.errClosed, AggEvent.resClosed]) :
    (TaskRunner.Run (msgs ++ closes)).1.length +
        (TaskRunner.Run (msgs ++ closes)).2.length = tasks.length ∧
    ((workerActions q).filter WorkerAction.isChanSend).length =
      (okValues q).length := by
  constructor
  · have hdel : ∀ e ∈ msgs, e.isDelivery = true := by
      intro e he
      have hmem : e ∈ tasks.map msgOfExec := hp.mem_iff.mp he
      obtain ⟨t, _, rfl⟩ := List.mem_map.mp hmem
      cases t <;> rfl
    have hlen : msgs.length = tasks.length := by
      have := hp.length_eq
      simpa using this
    rw [TaskRunner.Run, aggLoop_deliveries msgs hdel closes [] [],
      aggLoop_both_closed closes hc]
    simpa [delivery_count msgs hdel] using hlen
  · induction q with
    | nil => rfl
    | cons t rest ih =>
      cases t with
      | ok v => simpa [workerActions, okValues, WorkerAction.isChanSend] using ih
      | err e => simpa [workerActions, okValues, WorkerAction.isChanSend] using ih

/-- C1 witness: two tasks, one succeeding and one failing, their messages
arriving in submission order followed by both closes; the runner returns one
outcome and one error, 1 + 1 = 2. The pool side evaluated on the same two
tasks: one channel send for the one success. -/
theorem runner_accounts_every_task_witness :
    (TaskRunner.Run
        ([AggEvent.res [("k", "v")], AggEvent.err "boom"] ++
          [AggEvent.resClosed, AggEvent.errClosed])).1.length +
      (TaskRunner.Run
        ([AggEvent.res [("k", "v")], AggEvent.err "boom"] ++
          [AggEvent.resClosed, AggEvent.errClosed])).2.length =
      [ExecResult.ok [("k", "v")], ExecResult.err (α := Outcome) "boom"].length ∧
    ((workerActions [ExecResult.ok [("k", "v")],
        ExecResult.err (α := Outcome) "boom"]).filter
      WorkerAction.isChanSend).length =
      (okValues [ExecResult.ok [("k", "v")],
        ExecResult.err (α := Outcome) "boom"]).length :=
  runner_accounts_every_task
    [ExecResult.ok [("k", "v")], ExecResult.err "boom"]
    [AggEvent.res [("k", "v")], AggEvent.err "boom"]
    [AggEvent.resClosed, AggEvent.errClosed]
    [ExecResult.ok [("k", "v")], ExecResult.err "boom"]
    (List.Perm.refl _) (Or.inl rfl)

/-- Deadline lemma, generalized over the loop state: as long as the loop is
still live (not both nil flags set, now or by a close inside the prefix) and
the prefix holds no earlier deadline event, the first fired ctx.Done()
appends exactly one timeoutMsg and returns what is collected, ignoring the
rest of the trace. -/
theorem aggLoop_first_done (pfx : List AggEvent) (rest : List AggEvent)
    (rn en : Bool) (rs : List Outcome) (es : List String)
    (hnd : AggEvent.ctxDone ∉ pfx)
    (hm : ¬((rn = true ∨ AggEvent.resClosed ∈ pfx) ∧
            (en = true ∨ AggEvent.errClosed ∈ pfx))) :
    aggLoop (pfx ++ AggEvent.ctxDone :: rest) rn en rs es =
      (rs ++ resOf pfx, es ++ errOf pfx ++ [timeoutMsg]) := by
  induction pfx generalizing rn en rs es with
  | nil =>
    have hb : (rn && en) = false := by
      cases rn <;> cases en <;> simp_all
    rw [List.nil_append, aggLoop_ctxDone rest rn en rs es hb]
    simp [resOf, errOf]
  | cons e tl ih =>
    have hb : (rn && en) = false := by
      cases rn <;> cases en <;> simp_all
    have hndtl : AggEvent.ctxDone ∉ tl := fun h => hnd (by simp [h])
    cases e with
    | ctxDone => exact absurd (by simp) hnd
    | res r =>
      rw [List.cons_append, aggLoop_res r (tl ++ AggEvent.ctxDone :: rest) rn en rs es hb,
        ih rn en (rs ++ [r]) es hndtl (by simp_all)]
      simp [resOf, errOf]
    | err s =>
      rw [List.cons_append, aggLoop_err s (tl ++ AggEvent.ctxDone :: rest) rn en rs es hb,
        ih rn en rs (es ++ [s]) hndtl (by simp_all)]
      simp [resOf, errOf]
    | resClosed =>
      have hm2 : ¬((true = true ∨ AggEvent.resClosed ∈ tl) ∧
          (en = true ∨ AggEvent.errClosed ∈ tl)) := by
        intro hcon
        exact hm ⟨Or.inr (by simp), hcon.2.imp id fun h => by simp [h]⟩
      rw [List.cons_append, aggLoop_resClosed (tl ++ AggEvent.ctxDone :: rest) rn en rs es hb,
        ih true en rs es hndtl hm2]
      simp [resOf, errOf]
    | errClosed =>
      have hm2 : ¬((rn = true ∨ AggEvent.resClosed ∈ tl) ∧
          (true = true ∨ AggEvent.errClosed ∈ tl)) := by
        intro hcon
        exact hm ⟨hcon.1.imp id fun h => by simp [h], Or.inr (by simp)⟩
      rw [List.cons_append, aggLoop_errClosed (tl ++ AggEvent.ctxDone :: rest) rn en rs es hb,
        ih rn true rs es hndtl hm2]
      simp [resOf, errOf]

/-- C2: whenever ctx.Done() fires while the runner is still aggregating —
before both channels have been observed closed — TaskRunner.Run appends
exactly one synthetic timeout error after the errors already collected and
returns immediately: the returned pair is precisely the outcomes and errors
delivered before the deadline, plus that single timeout entry, and every
event after the deadline is discarded. -/
theorem runner_deadline_single_timeout (pfx rest : List AggEvent)
    (hnd : AggEvent.ctxDone ∉ pfx)
    (hnc : ¬(AggEvent.resClosed ∈ pfx ∧ AggEvent.errClosed ∈ pfx)) :
    TaskRunner.Run (pfx ++ AggEvent.ctxDone :: rest) =
      (resOf pfx, errOf pfx ++ [timeoutMsg]) := by
  rw [TaskRunner.Run, aggLoop_first_done pfx rest false false [] [] hnd (by simpa using hnc)]
  simp

/-- C2 witness: one result arrives, the results channel closes, then the
deadline fires with an unread error still pending; the runner returns the
one collected outcome and exactly the synthetic timeout error, dropping the
pending event. -/
theorem runner_deadline_single_timeout_witness :
    TaskRunner.Run
        ([AggEvent.res [("k", "v")], AggEvent.resClosed] ++
          AggEvent.ctxDone :: [AggEvent.err "late"]) =
      (resOf [AggEvent.res [("k", "v")], AggEvent.resClosed],
        errOf [AggEvent.res [("k", "v")], AggEvent.resClosed] ++ [timeoutMsg]) :=
  runner_deadline_single_timeout
    [AggEvent.res [("k", "v")], AggEvent.resClosed] [AggEvent.err "late"]
    (by decide) (by decide)

/-! ### Scraper lemmas -/

/-- Characterization of a successful selector loop: the results are the
accumulator followed by one binding per configured key with the value
scrapeVal assigns it, and the page was queried for exactly the non-empty
selectors in configuration order. -/
theorem scrapeSelectors_ok_eq (env : PageEnv) (sels : List (String × String))
    (acc : Outcome) (qacc : List String) (out : Outcome) (q : List String)
    (h : scrapeSelectors env sels acc qacc = (ScrapeOutput.ok out, q)) :
    out = acc ++ sels.map (fun p => (p.1, scrapeVal env p.2)) ∧
    q = qacc ++ (sels.map Prod.snd).filter (fun s => !(s == "")) := by
  induction sels generalizing acc qacc with
  | nil =>
    rw [scrapeSelectors] at h
    obtain ⟨h1, h2⟩ := Prod.mk.injEq .. ▸ h
    injection h1 with h1
    simp [← h1, ← h2]
  | cons p tl ih =>
    obtain ⟨key, sel⟩ := p
    by_cases hsel : sel = ""
    · subst hsel
      rw [scrapeSelectors, if_pos rfl] at h
      obtain ⟨ho, hq⟩ := ih _ _ h
      simp [ho, hq, scrapeVal]
    · rw [scrapeSelectors, if_neg hsel] at h
      cases hl : env.lookup sel with
      | notFound =>
        rw [hl] at h
        obtain ⟨ho, hq⟩ := ih _ _ h
        simp [ho, hq, scrapeVal, hsel, hl]
      | textErr m =>
        rw [hl] at h
        obtain ⟨h1, _⟩ := Prod.mk.injEq .. ▸ h
        exact absurd h1 (by simp)
      | found t =>
        rw [hl] at h
        obtain ⟨ho, hq⟩ := ih _ _ h
        simp [ho, hq, scrapeVal, hsel, hl]

/-- C8 counterexample: a Scrape whose context is already cancelled does not
return a Cancelled error — it creates the page, navigates, queries the page
for the selector h1 and returns the scraped text, exactly as with a live
context. No cancellation check exists anywhere in its body. -/
theorem scrape_cancelled_ctx_still_scrapes :
    Scrape ⟨true⟩ pageW [("title", "h1")] =
      (ScrapeOutput.ok [("title", "Title")], ["h1"]) := by
  decide

/-- C8 (amended): Scrape never consults the shared cancellation signal: its
return value and its page queries are identical for every context, cancelled
or not, so a cancelled context aborts nothing and no Cancelled error is ever
produced. -/
theorem scrape_independent_of_context (c c' : GoContext) (env : PageEnv)
    (sels : List (String × String)) :
    Scrape c env sels = Scrape c' env sels :=
  rfl

/-- C10: on every successful Scrape, the result map binds exactly the keys
of the selector map in order — so every configured key is present — each
key bound to the value scrapeVal describes; since scrapeVal sends the empty
selector to the empty string and the list of selectors the page was queried
for is exactly the non-empty ones, a key with an empty selector is bound to
the empty string without any page lookup. -/
theorem scrape_ok_covers_all_keys (ctx : GoContext) (env : PageEnv)
    (sels : List (String × String)) (out : Outcome) (q : List String)
    (h : Scrape ctx env sels = (ScrapeOutput.ok out, q)) :
    out = sels.map (fun p => (p.1, scrapeVal env p.2)) ∧
    out.map Prod.fst = sels.map Prod.fst ∧
    q = (sels.map Prod.snd).filter (fun s => !(s == "")) := by
  rw [Scrape] at h
  by_cases hn : env.navigateOk
  · rw [if_pos hn] at h
    obtain ⟨ho, hq⟩ := scrapeSelectors_ok_eq env sels [] [] out q h
    refine ⟨by simpa using ho, ?_, by simpa using hq⟩
    rw [ho]
    simp
  · rw [if_neg hn] at h
    obtain ⟨h1, _⟩ := Prod.mk.injEq .. ▸ h
    exact absurd h1 (by simp)

/-- C10 witness: a configuration with one empty selector and one selector
found on the page. Scrape succeeds, binds the empty-selector key to the
empty string, covers both keys, and queried the page only for h1. -/
theorem scrape_ok_covers_all_keys_witness :
    ([("name", ""), ("title", "Title")] : Outcome) =
      [("name", ""), ("title", "h1")].map (fun p => (p.1, scrapeVal pageW p.2)) ∧
    ([("name", ""), ("title", "Title")] : Outcome).map Prod.fst =
      [("name", ""), ("title", "h1")].map Prod.fst ∧
    ["h1"] = ([("name", ""), ("title", "h1")].map Prod.snd).filter
      (fun s => !(s == "")) :=
  scrape_ok_covers_all_keys ⟨false⟩ pageW [("name", ""), ("title", "h1")]
    [("name", ""), ("title", "Title")] ["h1"] (by decide)

/-- C9: the CSV exporter writes nothing for an empty record list (no header
row, no data rows, and Export then returns nil on the freshly created file),
and for a non-empty list it writes exactly one header row, built solely from
the keys of the first record, followed by one value row per record. -/
theorem csv_header_from_first_record :
    csvExport [] = [] ∧
    ∀ (first : Outcome) (rest : List Outcome),
      csvExport (first :: rest) =
        (first.map Prod.fst) :: (first :: rest).map (fun r => r.map Prod.snd) ∧
      (csvExport (first :: rest)).length = (first :: rest).length + 1 := by
  refine ⟨rfl, fun first rest => ⟨rfl, ?_⟩⟩
  simp [csvExport, csvHeaders]

end Ishe3ikin
